import Mathlib

/-!
Verification of the clock-overlay window (OverlayWindow.cpp).

The per-pixel mask arithmetic of ApplyCircularAlphaMask operates on
half-integer sample coordinates, so all squared distances and both radius
thresholds are exact rationals; they are embedded in ℚ.  Only the edge-band
falloff factor involves a square root, embedded via Real.sqrt.  Byte
computations (BYTE truncation, the integer divisions by 255 and by 100)
are embedded as ℕ floor/division, exactly as the C++ integer arithmetic
behaves on in-range byte values.
-/

namespace OverlayWindow

/-- A BGRA pixel of the 32-bit DIB section: the four byte channels at
offsets +0 (blue), +1 (green), +2 (red), +3 (alpha). -/
structure Pixel where
  b : ℕ
  g : ℕ
  r : ℕ
  a : ℕ
deriving DecidableEq

/-- The off-screen pixel buffer, indexed by column x and row y
(index = (y * clockSize + x) * 4 in the flat byte array). -/
def Buffer : Type := ℕ → ℕ → Pixel

/-- Squared distance from the pixel sample point (x + 0.5, y + 0.5) to the
buffer center (clockSize/2, clockSize/2), as computed from dx and dy in
ApplyCircularAlphaMask. -/
def distSquared (clockSize x y : ℕ) : ℚ :=
  ((x : ℚ) + 1/2 - (clockSize : ℚ) / 2) * ((x : ℚ) + 1/2 - (clockSize : ℚ) / 2) +
    ((y : ℚ) + 1/2 - (clockSize : ℚ) / 2) * ((y : ℚ) + 1/2 - (clockSize : ℚ) / 2)

/-- outerRadius = m_clockSize / 2.0f. -/
def outerRadius (clockSize : ℕ) : ℚ := (clockSize : ℚ) / 2

/-- innerRadius = outerRadius - 3.0f. -/
def innerRadius (clockSize : ℕ) : ℚ := outerRadius clockSize - 3

/-- outerRadiusSquared = outerRadius * outerRadius. -/
def outerRadiusSquared (clockSize : ℕ) : ℚ := outerRadius clockSize * outerRadius clockSize

/-- innerRadiusSquared = innerRadius * innerRadius. -/
def innerRadiusSquared (clockSize : ℕ) : ℚ := innerRadius clockSize * innerRadius clockSize

/-- The edge-band falloff factor: alpha = (outerRadius - dist) / (outerRadius
- innerRadius), then alpha = max(0.0f, min(1.0f, alpha)), where dist =
sqrt(distSquared). -/
noncomputable def alphaFactor (clockSize : ℕ) (distSq : ℚ) : ℝ :=
  max 0 (min 1 (((outerRadius clockSize : ℝ) - Real.sqrt (distSq : ℝ)) /
    ((outerRadius clockSize : ℝ) - (innerRadius clockSize : ℝ))))

/-- The per-pixel body of the nested loop of ApplyCircularAlphaMask: the
three distance branches, with BYTE casts of nonnegative in-range floats as
floors and the C++ integer divisions by 255 as ℕ division. -/
noncomputable def maskPixel (clockSize x y : ℕ) (p : Pixel) : Pixel :=
  let distSq := distSquared clockSize x y
  if outerRadiusSquared clockSize ≤ distSq then
    ⟨0, 0, 0, 0⟩
  else if innerRadiusSquared clockSize ≤ distSq then
    let newAlpha : ℕ := ⌊(p.a : ℝ) * alphaFactor clockSize distSq⌋₊
    ⟨p.b * newAlpha / 255, p.g * newAlpha / 255, p.r * newAlpha / 255, newAlpha⟩
  else
    ⟨p.b * p.a / 255, p.g * p.a / 255, p.r * p.a / 255, p.a⟩

/-- ApplyCircularAlphaMask: the double loop over y, x in [0, clockSize)
applying maskPixel to each in-range pixel. -/
noncomputable def ApplyCircularAlphaMask (clockSize : ℕ) (buf : Buffer) : Buffer :=
  fun x y =>
    if x < clockSize ∧ y < clockSize then maskPixel clockSize x y (buf x y) else buf x y

/-- C1: every pixel whose squared distance from the buffer center (at its
(x+0.5, y+0.5) sample point) is at least outerRadius², outerRadius =
clockSize/2, is written to (0,0,0,0) by ApplyCircularAlphaMask, regardless
of its prior contents. -/
theorem C1_outer_pixels_fully_transparent (clockSize x y : ℕ) (buf : Buffer)
    (hx : x < clockSize) (hy : y < clockSize)
    (h : outerRadiusSquared clockSize ≤ distSquared clockSize x y) :
    ApplyCircularAlphaMask clockSize buf x y = ⟨0, 0, 0, 0⟩ := by
  unfold ApplyCircularAlphaMask maskPixel
  rw [if_pos ⟨hx, hy⟩, if_pos h]

/-- Witness for C1: the corner pixel (0,0) of a 200×200 buffer has squared
distance 19800.5 ≥ 100², so it is blanked whatever its prior value. -/
theorem C1_witness :
    outerRadiusSquared 200 ≤ distSquared 200 0 0 ∧
      ApplyCircularAlphaMask 200 (fun _ _ => ⟨12, 34, 56, 78⟩) 0 0 = ⟨0, 0, 0, 0⟩ := by
  have h : outerRadiusSquared 200 ≤ distSquared 200 0 0 := by
    norm_num [outerRadiusSquared, outerRadius, distSquared]
  exact ⟨h, C1_outer_pixels_fully_transparent 200 0 0 _ (by norm_num) (by norm_num) h⟩

/-- Helper: a pixel inside the buffer whose squared distance is below
innerRadiusSquared also lies below outerRadiusSquared, so the first branch
of maskPixel is not taken.  For clockSize ≥ 3 this is innerRadiusSquared ≤
outerRadiusSquared; for clockSize ≤ 2 every in-range pixel is strictly
inside the outer circle. -/
theorem interior_lt_outer (clockSize x y : ℕ) (hx : x < clockSize) (hy : y < clockSize)
    (h : distSquared clockSize x y < innerRadiusSquared clockSize) :
    distSquared clockSize x y < outerRadiusSquared clockSize := by
  rcases le_or_lt 3 clockSize with hn | hn
  · have hn3 : (3 : ℚ) ≤ (clockSize : ℚ) := by exact_mod_cast hn
    have : innerRadiusSquared clockSize ≤ outerRadiusSquared clockSize := by
      unfold innerRadiusSquared outerRadiusSquared innerRadius outerRadius
      nlinarith
    exact lt_of_lt_of_le h this
  · interval_cases clockSize <;> interval_cases x <;> interval_cases y <;>
      norm_num [distSquared, outerRadiusSquared, outerRadius] at h ⊢

/-- C2: in the edge band (innerRadiusSquared ≤ d² < outerRadiusSquared,
innerRadius = outerRadius − 3), ApplyCircularAlphaMask sets the alpha byte
to original_alpha × alpha_factor (BYTE-truncated) with alpha_factor =
clamp((outerRadius − sqrt d²)/(outerRadius − innerRadius), 0, 1), and each
color channel to original_channel × new_alpha / 255; moreover at distance
d = outerRadius − 1.5 the factor equals 0.5. -/
theorem C2_edge_band_linear_falloff :
    (∀ (clockSize x y : ℕ) (buf : Buffer), x < clockSize → y < clockSize →
      innerRadiusSquared clockSize ≤ distSquared clockSize x y →
      distSquared clockSize x y < outerRadiusSquared clockSize →
      ApplyCircularAlphaMask clockSize buf x y =
        ⟨(buf x y).b * ⌊((buf x y).a : ℝ) *
            alphaFactor clockSize (distSquared clockSize x y)⌋₊ / 255,
          (buf x y).g * ⌊((buf x y).a : ℝ) *
            alphaFactor clockSize (distSquared clockSize x y)⌋₊ / 255,
          (buf x y).r * ⌊((buf x y).a : ℝ) *
            alphaFactor clockSize (distSquared clockSize x y)⌋₊ / 255,
          ⌊((buf x y).a : ℝ) * alphaFactor clockSize (distSquared clockSize x y)⌋₊⟩) ∧
    (∀ clockSize : ℕ, 3 ≤ clockSize →
      alphaFactor clockSize
          ((outerRadius clockSize - 3/2) * (outerRadius clockSize - 3/2)) = 1/2) := by
  constructor
  · intro clockSize x y buf hx hy hlo hhi
    unfold ApplyCircularAlphaMask maskPixel
    rw [if_pos ⟨hx, hy⟩, if_neg (not_le.mpr hhi), if_pos hlo]
  · intro clockSize hn
    have hn3 : (3 : ℝ) ≤ (clockSize : ℝ) := by exact_mod_cast hn
    have hR : ((outerRadius clockSize : ℚ) : ℝ) = (clockSize : ℝ) / 2 := by
      unfold outerRadius; push_cast; ring
    have hsq : (((outerRadius clockSize - 3/2) * (outerRadius clockSize - 3/2) : ℚ) : ℝ) =
        ((clockSize : ℝ) / 2 - 3/2) ^ 2 := by
      push_cast [hR]
      ring
    have hroot : Real.sqrt ((((outerRadius clockSize - 3/2) *
        (outerRadius clockSize - 3/2) : ℚ) : ℝ)) = (clockSize : ℝ) / 2 - 3/2 := by
      rw [hsq, Real.sqrt_sq (by linarith)]
    have hI : ((innerRadius clockSize : ℚ) : ℝ) = (clockSize : ℝ) / 2 - 3 := by
      unfold innerRadius outerRadius; push_cast; ring
    unfold alphaFactor
    rw [hroot, hR, hI]
    have h3 : (clockSize : ℝ) / 2 - ((clockSize : ℝ) / 2 - 3) = 3 := by ring
    have h32 : (clockSize : ℝ) / 2 - ((clockSize : ℝ) / 2 - 3/2) = 3/2 := by ring
    rw [h3, h32]
    norm_num

/-- Witness for C2: in a 200×200 buffer the pixel (0,99) has squared
distance 9900.5, inside the band [97², 100²); and at clockSize = 200 the
mid-band factor is 0.5. -/
theorem C2_witness :
    (innerRadiusSquared 200 ≤ distSquared 200 0 99 ∧
      distSquared 200 0 99 < outerRadiusSquared 200 ∧
      ApplyCircularAlphaMask 200 (fun _ _ => ⟨10, 20, 30, 255⟩) 0 99 =
        ⟨10 * ⌊(255 : ℝ) * alphaFactor 200 (distSquared 200 0 99)⌋₊ / 255,
          20 * ⌊(255 : ℝ) * alphaFactor 200 (distSquared 200 0 99)⌋₊ / 255,
          30 * ⌊(255 : ℝ) * alphaFactor 200 (distSquared 200 0 99)⌋₊ / 255,
          ⌊(255 : ℝ) * alphaFactor 200 (distSquared 200 0 99)⌋₊⟩) ∧
    alphaFactor 200 ((outerRadius 200 - 3/2) * (outerRadius 200 - 3/2)) = 1/2 := by
  have hlo : innerRadiusSquared 200 ≤ distSquared 200 0 99 := by
    norm_num [innerRadiusSquared, innerRadius, outerRadius, distSquared]
  have hhi : distSquared 200 0 99 < outerRadiusSquared 200 := by
    norm_num [outerRadiusSquared, outerRadius, distSquared]
  exact ⟨⟨hlo, hhi, C2_edge_band_linear_falloff.1 200 0 99 _ (by norm_num) (by norm_num) hlo hhi⟩,
    C2_edge_band_linear_falloff.2 200 (by norm_num)⟩

/-- C3: in the opaque interior (d² < innerRadiusSquared, including the
exact center d = 0), ApplyCircularAlphaMask premultiplies each color
channel by original_alpha / 255 and leaves the alpha byte unchanged. -/
theorem C3_interior_premultiply_alpha_unchanged (clockSize x y : ℕ) (buf : Buffer)
    (hx : x < clockSize) (hy : y < clockSize)
    (h : distSquared clockSize x y < innerRadiusSquared clockSize) :
    ApplyCircularAlphaMask clockSize buf x y =
      ⟨(buf x y).b * (buf x y).a / 255, (buf x y).g * (buf x y).a / 255,
        (buf x y).r * (buf x y).a / 255, (buf x y).a⟩ := by
  have houter := interior_lt_outer clockSize x y hx hy h
  unfold ApplyCircularAlphaMask maskPixel
  rw [if_pos ⟨hx, hy⟩, if_neg (not_le.mpr houter), if_neg (not_le.mpr h)]

/-- Witness for C3: in a 201×201 buffer the pixel (100,100) sits exactly at
the center (d = 0); its colors are premultiplied and its alpha byte 200 is
kept. -/
theorem C3_witness :
    distSquared 201 100 100 = 0 ∧
      distSquared 201 100 100 < innerRadiusSquared 201 ∧
      ApplyCircularAlphaMask 201 (fun _ _ => ⟨255, 128, 64, 200⟩) 100 100 =
        ⟨255 * 200 / 255, 128 * 200 / 255, 64 * 200 / 255, 200⟩ := by
  have h0 : distSquared 201 100 100 = 0 := by
    norm_num [distSquared]
  have h : distSquared 201 100 100 < innerRadiusSquared 201 := by
    norm_num [innerRadiusSquared, innerRadius, outerRadius, distSquared]
  exact ⟨h0, h,
    C3_interior_premultiply_alpha_unchanged 201 100 100 _ (by norm_num) (by norm_num) h⟩

/-- Helper: the clamp of the edge-band factor is at most 1. -/
theorem alphaFactor_le_one (clockSize : ℕ) (distSq : ℚ) :
    alphaFactor clockSize distSq ≤ 1 := by
  unfold alphaFactor
  exact max_le (by norm_num) (min_le_left _ _)

/-- Helper: the clamp of the edge-band factor is nonnegative. -/
theorem alphaFactor_nonneg (clockSize : ℕ) (distSq : ℚ) :
    0 ≤ alphaFactor clockSize distSq :=
  le_max_left _ _

/-- C10: ApplyCircularAlphaMask never increases a byte: on every valid
pixel (alpha a byte, so a ≤ 255) the output alpha is at most the input
alpha and each output color channel is at most its input value, in all
three distance branches. -/
theorem C10_mask_never_increases_bytes (clockSize x y : ℕ) (buf : Buffer)
    (ha : (buf x y).a ≤ 255) :
    (ApplyCircularAlphaMask clockSize buf x y).a ≤ (buf x y).a ∧
    (ApplyCircularAlphaMask clockSize buf x y).b ≤ (buf x y).b ∧
    (ApplyCircularAlphaMask clockSize buf x y).g ≤ (buf x y).g ∧
    (ApplyCircularAlphaMask clockSize buf x y).r ≤ (buf x y).r := by
  unfold ApplyCircularAlphaMask
  by_cases hin : x < clockSize ∧ y < clockSize
  · rw [if_pos hin]
    unfold maskPixel
    rcases le_or_lt (outerRadiusSquared clockSize) (distSquared clockSize x y) with h1 | h1
    · rw [if_pos h1]
      exact ⟨Nat.zero_le _, Nat.zero_le _, Nat.zero_le _, Nat.zero_le _⟩
    · rw [if_neg (not_le.mpr h1)]
      rcases le_or_lt (innerRadiusSquared clockSize) (distSquared clockSize x y) with h2 | h2
      · -- edge band: newAlpha = ⌊a * alphaFactor⌋ ≤ a, channels scaled by ≤ 255
        rw [if_pos h2]
        have hfloor :
            ⌊((buf x y).a : ℝ) * alphaFactor clockSize (distSquared clockSize x y)⌋₊ ≤
              (buf x y).a := by
          have hle : ((buf x y).a : ℝ) * alphaFactor clockSize (distSquared clockSize x y) ≤
              ((buf x y).a : ℝ) := by
            have h3 := alphaFactor_le_one clockSize (distSquared clockSize x y)
            nlinarith [alphaFactor_nonneg clockSize (distSquared clockSize x y),
              Nat.cast_nonneg (α := ℝ) (buf x y).a]
          calc ⌊((buf x y).a : ℝ) * alphaFactor clockSize (distSquared clockSize x y)⌋₊
              ≤ ⌊((buf x y).a : ℝ)⌋₊ := Nat.floor_le_floor hle
            _ = (buf x y).a := Nat.floor_natCast (buf x y).a
        have hch : ∀ c : ℕ,
            c * ⌊((buf x y).a : ℝ) * alphaFactor clockSize (distSquared clockSize x y)⌋₊ /
              255 ≤ c := by
          intro c
          have h255 :
              ⌊((buf x y).a : ℝ) * alphaFactor clockSize (distSquared clockSize x y)⌋₊ ≤
                255 := le_trans hfloor ha
          calc c * ⌊((buf x y).a : ℝ) * alphaFactor clockSize (distSquared clockSize x y)⌋₊ /
                255
              ≤ c * 255 / 255 := Nat.div_le_div_right (Nat.mul_le_mul_left c h255)
            _ = c := by omega
        exact ⟨hfloor, hch (buf x y).b, hch (buf x y).g, hch (buf x y).r⟩
      · -- interior: channels premultiplied by a/255 ≤ 1, alpha kept
        rw [if_neg (not_le.mpr h2)]
        have hch : ∀ c : ℕ, c * (buf x y).a / 255 ≤ c := by
          intro c
          calc c * (buf x y).a / 255
              ≤ c * 255 / 255 := Nat.div_le_div_right (Nat.mul_le_mul_left c ha)
            _ = c := by omega
        exact ⟨le_refl _, hch (buf x y).b, hch (buf x y).g, hch (buf x y).r⟩
  · rw [if_neg hin]
    exact ⟨le_refl _, le_refl _, le_refl _, le_refl _⟩

/-- Witness for C10: a concrete 200×200 buffer pixel with byte values
(10, 20, 30, 40) is not increased in any channel by the mask. -/
theorem C10_witness :
    (40 : ℕ) ≤ 255 ∧
      (ApplyCircularAlphaMask 200 (fun _ _ => ⟨10, 20, 30, 40⟩) 5 7).a ≤ 40 ∧
      (ApplyCircularAlphaMask 200 (fun _ _ => ⟨10, 20, 30, 40⟩) 5 7).b ≤ 10 ∧
      (ApplyCircularAlphaMask 200 (fun _ _ => ⟨10, 20, 30, 40⟩) 5 7).g ≤ 20 ∧
      (ApplyCircularAlphaMask 200 (fun _ _ => ⟨10, 20, 30, 40⟩) 5 7).r ≤ 30 := by
  have h := C10_mask_never_increases_bytes 200 5 7 (fun _ _ => ⟨10, 20, 30, 40⟩) (by norm_num)
  exact ⟨by norm_num, h.1, h.2.1, h.2.2.1, h.2.2.2⟩

/-- hourAngle = ((st.wHour % 12) + st.wMinute / 60.0) * 30.0. -/
def hourAngle (hour minute : ℕ) : ℚ := (((hour % 12 : ℕ) : ℚ) + (minute : ℚ) / 60) * 30

/-- minuteAngle = st.wMinute * 6.0. -/
def minuteAngle (minute : ℕ) : ℚ := (minute : ℚ) * 6

/-- C4: for every valid local time the hour-hand angle equals
((hour mod 12) + minute/60) × 30 and lies in [0, 360); the minute-hand
angle equals minute × 6; at 3:15 the two angles are 97.5° and 90°. -/
theorem C4_hand_angles (hour minute : ℕ) (hh : hour ≤ 23) (hm : minute ≤ 59) :
    (0 ≤ hourAngle hour minute ∧ hourAngle hour minute < 360 ∧
      hourAngle hour minute = (((hour % 12 : ℕ) : ℚ) + (minute : ℚ) / 60) * 30 ∧
      minuteAngle minute = (minute : ℚ) * 6) ∧
    hourAngle 3 15 = 97.5 ∧ minuteAngle 15 = 90 := by
  have h12 : hour % 12 < 12 := Nat.mod_lt _ (by norm_num)
  have h12q : ((hour % 12 : ℕ) : ℚ) ≤ 11 := by
    have : hour % 12 ≤ 11 := by omega
    exact_mod_cast this
  have hmq : (minute : ℚ) ≤ 59 := by exact_mod_cast hm
  refine ⟨⟨?_, ?_, rfl, rfl⟩, ?_, ?_⟩
  · unfold hourAngle
    positivity
  · unfold hourAngle
    nlinarith [Nat.cast_nonneg (α := ℚ) (hour % 12), Nat.cast_nonneg (α := ℚ) minute]
  · norm_num [hourAngle]
  · norm_num [minuteAngle]

/-- Witness for C4: instantiated at 3:15 — the hour angle is 97.5° and the
minute angle 90°, both in range. -/
theorem C4_witness :
    (3 : ℕ) ≤ 23 ∧ (15 : ℕ) ≤ 59 ∧ 0 ≤ hourAngle 3 15 ∧ hourAngle 3 15 < 360 ∧
      hourAngle 3 15 = 97.5 ∧ minuteAngle 15 = 90 := by
  have h := C4_hand_angles 3 15 (by norm_num) (by norm_num)
  exact ⟨by norm_num, by norm_num, h.1.1, h.1.2.1, h.2.1, h.2.2⟩

/-- State touched by the WndProc timer handlers: m_fadeoutCounter,
m_currentAlpha, and whether DestroyWindow has been called (after which both
timers are killed and no further tick runs). -/
structure SurfaceState where
  fadeoutCounter : ℕ
  currentAlpha : ℕ
  destroyed : Bool
deriving DecidableEq

/-- WM_CREATE: m_fadeoutCounter = 0, m_currentAlpha = 255. -/
def initialState : SurfaceState := ⟨0, 255, false⟩

/-- The FADEOUT_TIMER_ID branch of WM_TIMER: increment the counter; at 100
call DestroyWindow (no new alpha is computed); otherwise set m_currentAlpha
to 255 * (100 - counter) / 100 (integer division) and recomposite. -/
def fadeTick (s : SurfaceState) : SurfaceState :=
  if s.destroyed then s
  else
    let c := s.fadeoutCounter + 1
    if 100 ≤ c then ⟨c, s.currentAlpha, true⟩
    else ⟨c, 255 * (100 - c) / 100, false⟩

/-- The two timer events dispatched to WndProc. -/
inductive Event where
  | redrawTick
  | fadeoutTick
deriving DecidableEq

/-- One WM_TIMER dispatch: TIMER_ID redraws the bitmap and recomposites
(touching neither counter nor alpha); FADEOUT_TIMER_ID runs fadeTick. -/
def step (s : SurfaceState) (e : Event) : SurfaceState :=
  match e with
  | .redrawTick => s
  | .fadeoutTick => fadeTick s

/-- Helper: the state after c ≤ 99 fade ticks is exactly counter = c,
alpha = 255 * (100 - c) / 100, not destroyed. -/
theorem fadeTick_iterate (c : ℕ) (hc : c ≤ 99) :
    fadeTick^[c] initialState = ⟨c, 255 * (100 - c) / 100, false⟩ := by
  induction c with
  | zero => norm_num [initialState]
  | succ n ih =>
    have hn : n ≤ 99 := by omega
    rw [Function.iterate_succ_apply', ih hn]
    unfold fadeTick
    have h100 : ¬ (100 ≤ n + 1) := by omega
    simp only [Bool.false_eq_true, if_false, h100]

/-- C5: for every counter value c ∈ [0,99] the alpha after c fade ticks is
255*(100-c)/100 (so 255 at c = 0), this value is monotonically
non-increasing in c, and the tick that brings the counter to 100 destroys
the window without computing a new alpha. -/
theorem C5_fade_alpha_formula (c : ℕ) (hc : c ≤ 99) :
    (fadeTick^[c] initialState).currentAlpha = 255 * (100 - c) / 100 ∧
    initialState.currentAlpha = 255 ∧
    (∀ c2 : ℕ, c ≤ c2 → c2 ≤ 99 →
      (fadeTick^[c2] initialState).currentAlpha ≤ (fadeTick^[c] initialState).currentAlpha) ∧
    (fadeTick^[100] initialState).destroyed = true ∧
    (fadeTick^[100] initialState).currentAlpha = (fadeTick^[99] initialState).currentAlpha := by
  have h100 : fadeTick^[100] initialState = ⟨100, 255 * (100 - 99) / 100, true⟩ := by
    have h99 : fadeTick^[99] initialState = ⟨99, 255 * (100 - 99) / 100, false⟩ :=
      fadeTick_iterate 99 (by norm_num)
    rw [show (100 : ℕ) = 99 + 1 from rfl, Function.iterate_succ_apply', h99]
    unfold fadeTick
    norm_num
  refine ⟨?_, rfl, ?_, ?_, ?_⟩
  · rw [fadeTick_iterate c hc]
  · intro c2 h1 h2
    rw [fadeTick_iterate c hc, fadeTick_iterate c2 h2]
    exact Nat.div_le_div_right (Nat.mul_le_mul_left 255 (by omega))
  · rw [h100]
  · rw [h100, fadeTick_iterate 99 (by norm_num)]

/-- Witness for C5: after 50 fade ticks the alpha is 255*50/100 = 127. -/
theorem C5_witness :
    (50 : ℕ) ≤ 99 ∧ (fadeTick^[50] initialState).currentAlpha = 255 * (100 - 50) / 100 ∧
      (fadeTick^[100] initialState).destroyed = true := by
  have h := C5_fade_alpha_formula 50 (by norm_num)
  exact ⟨by norm_num, h.1, h.2.2.2.1⟩

/-- Helper invariant for reachable surface states: the counter never
exceeds 100 and equals 100 exactly when the window has been destroyed. -/
def SurfaceInv (s : SurfaceState) : Prop :=
  s.fadeoutCounter ≤ 100 ∧ (s.destroyed = true ↔ s.fadeoutCounter = 100)

/-- Helper: one event dispatch preserves the surface invariant. -/
theorem step_preserves_inv (s : SurfaceState) (e : Event) (h : SurfaceInv s) :
    SurfaceInv (step s e) := by
  obtain ⟨h1, h2⟩ := h
  cases e with
  | redrawTick => exact ⟨h1, h2⟩
  | fadeoutTick =>
    show SurfaceInv (fadeTick s)
    unfold fadeTick
    by_cases hd : s.destroyed
    · rw [if_pos hd]; exact ⟨h1, h2⟩
    · rw [if_neg hd]
      have hne : s.fadeoutCounter ≠ 100 := fun hx => hd (h2.mpr hx)
      by_cases h100 : 100 ≤ s.fadeoutCounter + 1
      · rw [if_pos h100]
        constructor
        · show s.fadeoutCounter + 1 ≤ 100; omega
        · constructor
          · intro _; show s.fadeoutCounter + 1 = 100; omega
          · intro _; rfl
      · rw [if_neg h100]
        constructor
        · show s.fadeoutCounter + 1 ≤ 100; omega
        · constructor
          · intro hx; exact absurd hx (by simp)
          · intro hx; exact absurd (show s.fadeoutCounter + 1 = 100 from hx) (by omega)

/-- Helper: every state reached from initialState by a sequence of timer
events satisfies the surface invariant. -/
theorem foldl_step_inv (events : List Event) : SurfaceInv (events.foldl step initialState) := by
  have hgen : ∀ (l : List Event) (s : SurfaceState), SurfaceInv s → SurfaceInv (l.foldl step s) := by
    intro l
    induction l with
    | nil => intro s hs; exact hs
    | cons e rest ih =>
      intro s hs
      rw [List.foldl_cons]
      exact ih (step s e) (step_preserves_inv s e hs)
  exact hgen events initialState ⟨by norm_num [initialState], by norm_num [initialState]⟩

/-- C6: over every sequence of timer events, the counter starts at 0, never
exceeds 100, never decreases at a step, is incremented by exactly 1 by a
fade tick (and only by fade ticks — a redraw tick leaves the state alone),
and reaching 100 is terminal: the reaching tick has destroyed the window,
after which every further event leaves the state unchanged. -/
theorem C6_counter_monotone_terminal (events : List Event) :
    initialState.fadeoutCounter = 0 ∧
    (events.foldl step initialState).fadeoutCounter ≤ 100 ∧
    (∀ e : Event, (events.foldl step initialState).fadeoutCounter ≤
      (step (events.foldl step initialState) e).fadeoutCounter) ∧
    ((events.foldl step initialState).destroyed = false →
      (step (events.foldl step initialState) Event.fadeoutTick).fadeoutCounter =
        (events.foldl step initialState).fadeoutCounter + 1) ∧
    (∀ t : SurfaceState, (step t Event.redrawTick) = t) ∧
    ((events.foldl step initialState).fadeoutCounter = 100 →
      (events.foldl step initialState).destroyed = true) ∧
    (∀ e : Event, (events.foldl step initialState).destroyed = true →
      step (events.foldl step initialState) e = events.foldl step initialState) := by
  obtain ⟨hle, hiff⟩ := foldl_step_inv events
  set s := events.foldl step initialState with hs
  have hmono : ∀ e : Event, s.fadeoutCounter ≤ (step s e).fadeoutCounter := by
    intro e
    cases e with
    | redrawTick => exact le_refl _
    | fadeoutTick =>
      show s.fadeoutCounter ≤ (fadeTick s).fadeoutCounter
      unfold fadeTick
      by_cases hd : s.destroyed
      · rw [if_pos hd]
      · rw [if_neg hd]
        by_cases h100 : 100 ≤ s.fadeoutCounter + 1
        · rw [if_pos h100]; exact Nat.le_succ _
        · rw [if_neg h100]; exact Nat.le_succ _
  refine ⟨rfl, hle, hmono, ?_, fun t => rfl, hiff.mpr, ?_⟩
  · intro hd
    show (fadeTick s).fadeoutCounter = s.fadeoutCounter + 1
    unfold fadeTick
    rw [if_neg (by rw [hd]; exact Bool.false_ne_true)]
    by_cases h100 : 100 ≤ s.fadeoutCounter + 1
    · rw [if_pos h100]
    · rw [if_neg h100]
  · intro e hd
    cases e with
    | redrawTick => rfl
    | fadeoutTick =>
      show fadeTick s = s
      unfold fadeTick
      rw [if_pos hd]

/-- Witness for C6: after one fade tick and one redraw tick the counter is
1 ≤ 100, a further fade tick moves it to 2, and a redraw tick is the
identity on states. -/
theorem C6_witness :
    ([Event.fadeoutTick, Event.redrawTick].foldl step initialState).fadeoutCounter ≤ 100 ∧
      (([Event.fadeoutTick, Event.redrawTick].foldl step initialState).destroyed = false →
        (step ([Event.fadeoutTick, Event.redrawTick].foldl step initialState)
            Event.fadeoutTick).fadeoutCounter =
          ([Event.fadeoutTick, Event.redrawTick].foldl step initialState).fadeoutCounter + 1) := by
  have h := C6_counter_monotone_terminal [Event.fadeoutTick, Event.redrawTick]
  exact ⟨h.2.1, h.2.2.2.1⟩

/-- Observable outcome of Create(): the returned Bool plus which of its
side effects ran (marking s_classRegistered, reading GetSystemMetrics,
creating the window, MakeWindowClickThrough, CreateClockBitmap). -/
structure CreateResult where
  success : Bool
  classRegistered : Bool
  tookScreenMetrics : Bool
  windowCreated : Bool
  madeClickThrough : Bool
  createdClockBitmap : Bool
deriving DecidableEq

/-- Create(), with the outcomes of RegisterClassExW and CreateWindowExW as
oracles: on registration failure return false at once (class not marked
registered, no metrics, no window); on window-creation failure return false
before MakeWindowClickThrough and CreateClockBitmap; otherwise run both and
return true. -/
def Create (classAlreadyRegistered registerOk createWindowOk : Bool) : CreateResult :=
  if !classAlreadyRegistered && !registerOk then
    ⟨false, false, false, false, false, false⟩
  else if !createWindowOk then
    ⟨false, true, true, false, false, false⟩
  else
    ⟨true, true, true, true, true, true⟩

/-- C7: if class registration fails Create returns false having done
nothing further (no registered mark, no metrics, no window); if window
creation fails Create returns false without making the window
click-through or creating the clock bitmap; and Create returns true
exactly when a window was created. -/
theorem C7_create_failure_paths (classAlreadyRegistered registerOk createWindowOk : Bool) :
    (classAlreadyRegistered = false → registerOk = false →
      Create classAlreadyRegistered registerOk createWindowOk =
        ⟨false, false, false, false, false, false⟩) ∧
    (createWindowOk = false →
      (Create classAlreadyRegistered registerOk createWindowOk).success = false ∧
      (Create classAlreadyRegistered registerOk createWindowOk).madeClickThrough = false ∧
      (Create classAlreadyRegistered registerOk createWindowOk).createdClockBitmap = false) ∧
    ((Create classAlreadyRegistered registerOk createWindowOk).success = true ↔
      (Create classAlreadyRegistered registerOk createWindowOk).windowCreated = true) := by
  revert classAlreadyRegistered registerOk createWindowOk
  decide

/-- Witness for C7: with registration failing, Create reports failure and
does nothing; with only window creation failing, Create reports failure
without the post-creation steps. -/
theorem C7_witness :
    Create false false true = ⟨false, false, false, false, false, false⟩ ∧
      (Create true true false).success = false ∧
      (Create true true false).madeClickThrough = false ∧
      (Create true true false).createdClockBitmap = false :=
  ⟨(C7_create_failure_paths false false true).1 rfl rfl,
    (C7_create_failure_paths true true false).2.1 rfl⟩

/-- Local wall-clock time as read by GetLocalTime; CreateClockBitmap only
ever reads wHour and wMinute. -/
structure LocalTime where
  hour : ℕ
  minute : ℕ
  second : ℕ
deriving DecidableEq

/-- graphics.Clear(Color(0, 0, 0, 0)): every pixel becomes fully
transparent, whatever the buffer held before. -/
def graphicsClear (_ : Buffer) : Buffer := fun _ _ => ⟨0, 0, 0, 0⟩

/-- The drawing body of CreateClockBitmap (steps between the clear and the
mask): clear the buffer, draw face, outline, hands at the two computed
angles and the hub — the GDI+ rendering of the shapes is abstracted as a
deterministic function draw of the two hand angles — then apply the
circular alpha mask. -/
noncomputable def CreateClockBitmap (draw : ℚ → ℚ → Buffer → Buffer) (clockSize : ℕ)
    (t : LocalTime) (buf : Buffer) : Buffer :=
  ApplyCircularAlphaMask clockSize
    (draw (hourAngle t.hour t.minute) (minuteAngle t.minute) (graphicsClear buf))

/-- ApplyCircularAlphaMask's guard: if (!m_pBits) return — with no buffer
the mask touches nothing. -/
noncomputable def ApplyCircularAlphaMaskGuarded (clockSize : ℕ) (pBits : Option Buffer) :
    Option Buffer :=
  match pBits with
  | none => none
  | some buf => some (ApplyCircularAlphaMask clockSize buf)

/-- CreateClockBitmap's resource guards: if GetDC fails return leaving the
buffer untouched; if no memory DC exists yet, allocate the DC and DIB
section (allocOk), and on failure return with everything torn back down
(no drawing); otherwise draw into the (fresh or existing) buffer. -/
noncomputable def CreateClockBitmapRun (hdcScreenOk allocOk : Bool)
    (draw : ℚ → ℚ → Buffer → Buffer) (clockSize : ℕ) (t : LocalTime)
    (pBits : Option Buffer) : Option Buffer :=
  if !hdcScreenOk then pBits
  else
    match pBits with
    | some buf => some (CreateClockBitmap draw clockSize t buf)
    | none =>
      if !allocOk then none
      else some (CreateClockBitmap draw clockSize t (fun _ _ => ⟨0, 0, 0, 0⟩))

/-- UpdateWindowDisplay: if (!m_hdcMem || !m_hBitmap) return — nothing is
presented; otherwise (and if GetDC succeeds) call UpdateLayeredWindow with
SourceConstantAlpha = m_currentAlpha over the buffer. -/
def UpdateWindowDisplay (hdcScreenOk : Bool) (pBits : Option Buffer) (currentAlpha : ℕ) :
    Option (ℕ × Buffer) :=
  match pBits with
  | none => none
  | some buf => if !hdcScreenOk then none else some (currentAlpha, buf)

/-- C8: with the off-screen buffer missing, every stage silently skips:
the mask is a no-op on a null m_pBits, CreateClockBitmap with failed
allocation draws nothing and leaves the (absent) buffer state unchanged,
and UpdateWindowDisplay presents nothing — no error surfaces anywhere. -/
theorem C8_null_buffer_silent_skip (clockSize : ℕ) (t : LocalTime)
    (draw : ℚ → ℚ → Buffer → Buffer) (currentAlpha : ℕ) (hdcScreenOk : Bool) :
    ApplyCircularAlphaMaskGuarded clockSize none = none ∧
    CreateClockBitmapRun hdcScreenOk false draw clockSize t none = none ∧
    UpdateWindowDisplay hdcScreenOk none currentAlpha = none := by
  refine ⟨rfl, ?_, rfl⟩
  cases hdcScreenOk <;> rfl

/-- C9: CreateClockBitmap is insensitive to the prior buffer contents (it
clears first) and reads the time only through (hour, minute): two
invocations within the same minute — even back-to-back on each other's
output, or at different seconds — produce identical buffers. -/
theorem C9_rasterizer_idempotent_per_minute (draw : ℚ → ℚ → Buffer → Buffer)
    (clockSize : ℕ) (t1 t2 : LocalTime) (buf : Buffer)
    (hhour : t1.hour = t2.hour) (hminute : t1.minute = t2.minute) :
    CreateClockBitmap draw clockSize t2 (CreateClockBitmap draw clockSize t1 buf) =
      CreateClockBitmap draw clockSize t1 buf ∧
    (∀ b1 b2 : Buffer, CreateClockBitmap draw clockSize t1 b1 =
      CreateClockBitmap draw clockSize t2 b2) := by
  constructor
  · unfold CreateClockBitmap
    rw [← hhour, ← hminute]
    rfl
  · intro b1 b2
    unfold CreateClockBitmap
    rw [← hhour, ← hminute]
    rfl

/-- Witness for C9: at 3:15:00 and 3:15:30 (same minute, different
seconds) the rasterizer yields the same buffer, and re-running it on its
own output changes nothing. -/
theorem C9_witness :
    CreateClockBitmap (fun _ _ b => b) 8 ⟨3, 15, 30⟩
        (CreateClockBitmap (fun _ _ b => b) 8 ⟨3, 15, 0⟩ (fun _ _ => ⟨1, 2, 3, 4⟩)) =
      CreateClockBitmap (fun _ _ b => b) 8 ⟨3, 15, 0⟩ (fun _ _ => ⟨1, 2, 3, 4⟩) ∧
    CreateClockBitmap (fun _ _ b => b) 8 ⟨3, 15, 0⟩ (fun _ _ => ⟨1, 2, 3, 4⟩) =
      CreateClockBitmap (fun _ _ b => b) 8 ⟨3, 15, 30⟩ (fun _ _ => ⟨9, 9, 9, 9⟩) := by
  have h := C9_rasterizer_idempotent_per_minute (fun _ _ b => b) 8 ⟨3, 15, 0⟩ ⟨3, 15, 30⟩
    (fun _ _ => ⟨1, 2, 3, 4⟩) rfl rfl
  exact ⟨h.1, h.2 (fun _ _ => ⟨1, 2, 3, 4⟩) (fun _ _ => ⟨9, 9, 9, 9⟩)⟩

end OverlayWindow
